import Mathlib

/-!
Verification of the walnut-webview-tester App Store publishing scripts.

This file shallowly embeds the parts of the repository's Python sources that
the checked properties are about:

* `src/store/upload-metadata.py` — locale list, metadata-table resolution,
  version-localization payload construction, the per-locale upsert loop of
  `main`, JWT token construction, record selection by editable state;
* `src/store/upload-screenshots.py` — cover-resize geometry and the
  per-locale screenshot preparation counters;
* `src/store/upload-screenshots-api.py` — the cached token provider and the
  three-step screenshot upload protocol.

HTTP calls, file I/O and subprocess invocations are modelled by explicit
action traces and by response-status oracles passed in as arguments; time is
an explicit parameter.  Python dictionaries keyed by locale are modelled as
association lists or as `String → Option String` functions.
-/

namespace Walnut

/-! ### Locale list and metadata table (upload-metadata.py)

`LOCALES` is the list of 39 locales the metadata script iterates over.
`METADATA` in the source is a Python dict from locale key to a record of six
string fields; its keys, in dict order, are `METADATA_keys`.  For locale
resolution only the key set matters (the dict's keys are distinct, so the key
determines the record); `get_metadata_for_locale` below returns the key of
the record that the Python function returns, and `none` exactly where the
Python function would raise a `KeyError`. -/

def LOCALES : List String :=
  ["ar-SA", "ca", "cs", "da", "de-DE", "el", "en-AU", "en-CA", "en-GB", "en-US",
   "es-ES", "es-MX", "fi", "fr-CA", "fr-FR", "he", "hi", "hr", "hu", "id",
   "it", "ja", "ko", "ms", "nl-NL", "no", "pl", "pt-BR", "pt-PT", "ro",
   "ru", "sk", "sv", "th", "tr", "uk", "vi", "zh-Hans", "zh-Hant"]

def METADATA_keys : List String :=
  ["en-US", "en-AU", "en-CA", "en-GB", "ko", "ja", "zh-Hans", "zh-Hant",
   "de-DE", "fr-FR", "fr-CA", "es-ES", "es-MX", "it", "pt-BR", "pt-PT",
   "ru", "ar-SA", "hi", "th", "vi", "id", "ms", "nl-NL", "pl", "tr",
   "uk", "sv", "no", "da", "fi", "cs", "sk", "hu", "ro", "hr", "el",
   "he", "ca"]

def DEFAULT_LOCALE : String := "en-US"

/-- The `locale_mapping` dict inside `get_metadata_for_locale`, mapping
regional locales to their base language. -/
def locale_mapping : List (String × String) :=
  [("en-AU", "en-US"), ("en-CA", "en-US"), ("en-GB", "en-US"),
   ("es-MX", "es-ES"), ("fr-CA", "fr-FR"), ("pt-PT", "pt-BR")]

/-- Model of `get_metadata_for_locale(locale)` from `upload-metadata.py`, at the level
of table keys: returns the key of the `METADATA` entry the Python function
returns (`none` would correspond to a `KeyError` on the final
`METADATA[DEFAULT_LOCALE]` lookup). -/
def get_metadata_for_locale (locale : String) : Option String :=
  if METADATA_keys.contains locale then
    some locale
  else
    match locale_mapping.lookup locale with
    | some mapped =>
        if METADATA_keys.contains mapped then some mapped
        else if METADATA_keys.contains DEFAULT_LOCALE then some DEFAULT_LOCALE
        else none
    | none =>
        if METADATA_keys.contains DEFAULT_LOCALE then some DEFAULT_LOCALE
        else none

/-! ### Metadata records and version-localization payloads

A `METADATA` entry has six string fields.  Python's `metadata.get(k, "")`
on these records always finds the key, so it is the plain field access.
Python string slicing `s[:100]` slices by code points, modelled by
`pyTake` on the character list of the string. -/

structure Metadata where
  name : String
  subtitle : String
  description : String
  keywords : String
  whatsNew : String
  promotionalText : String
deriving DecidableEq

/-- Python `s[:n]` on a `str` (slice by code points). -/
def pyTake (s : String) (n : Nat) : String := ⟨s.data.take n⟩

/-- The `attributes` object sent by both `update_version_localization` and
`create_version_localization` (the create payload carries `locale` next to
these, modelled separately). -/
structure VersionLocAttributes where
  description : String
  keywords : String
  whatsNew : String
  promotionalText : String
deriving DecidableEq

/-- The attributes both version-localization payload builders construct from
a metadata record: only `keywords` is truncated (`[:100]`). -/
def versionLocAttributes (m : Metadata) : VersionLocAttributes :=
  { description := m.description
    keywords := pyTake m.keywords 100
    whatsNew := m.whatsNew
    promotionalText := m.promotionalText }

/-- The JSON payload of `update_version_localization` (PATCH). -/
structure UpdateVersionLocPayload where
  type : String
  id : String
  attributes : VersionLocAttributes
deriving DecidableEq

/-- The JSON payload of `create_version_localization` (POST). -/
structure CreateVersionLocPayload where
  type : String
  locale : String
  attributes : VersionLocAttributes
  relationshipVersionId : String
deriving DecidableEq

def update_version_localization_payload (localization_id : String)
    (m : Metadata) : UpdateVersionLocPayload :=
  { type := "appStoreVersionLocalizations"
    id := localization_id
    attributes := versionLocAttributes m }

def create_version_localization_payload (version_id locale : String)
    (m : Metadata) : CreateVersionLocPayload :=
  { type := "appStoreVersionLocalizations"
    locale := locale
    attributes := versionLocAttributes m
    relationshipVersionId := version_id }

/-! ### HTTP requests of the metadata upsert (upload-metadata.py `main`)

Each HTTP request the metadata script can issue is an action.  The
vocabulary includes app-info localization PATCH/POST requests — the requests
an app-info upsert would send — even though `update_app_info_localization`
and `create_app_info_localization` are no-ops in the source and never emit
them.  Response statuses are supplied by oracles (`String → Nat`). -/

inductive MetaAction where
  | getAppInfoLocalizations (appInfoId : String)
  | getVersionLocalizations (versionId : String)
  | patchAppInfoLoc (localizationId : String)
  | postAppInfoLoc (appInfoId : String) (locale : String)
  | patchVersionLoc (localizationId : String) (attrs : VersionLocAttributes)
  | postVersionLoc (versionId : String) (locale : String)
      (attrs : VersionLocAttributes)
deriving DecidableEq

/-- Whether an action is an HTTP request touching app-info localizations. -/
def MetaAction.isAppInfoLocRequest : MetaAction → Bool
  | .patchAppInfoLoc _ => true
  | .postAppInfoLoc _ _ => true
  | _ => false

/-- Whether an action is one of the two prefetches of existing
localizations. -/
def MetaAction.isFetch : MetaAction → Bool
  | .getAppInfoLocalizations _ => true
  | .getVersionLocalizations _ => true
  | _ => false

/-- Model of `update_app_info_localization` — a no-op in the source ("app info
updates are intentionally disabled"): returns `True`, sends nothing. -/
def update_app_info_localization (_localization_id _locale : String)
    (_m : Metadata) : Bool × List MetaAction :=
  (true, [])

/-- Model of `create_app_info_localization` — likewise a no-op. -/
def create_app_info_localization (_app_info_id _locale : String)
    (_m : Metadata) : Bool × List MetaAction :=
  (true, [])

/-- Model of `update_version_localization`: PATCHes the payload and succeeds exactly
on a 200 response.  `status` is the HTTP status the remote returns. -/
def update_version_localization (status : Nat) (localization_id _locale : String)
    (m : Metadata) : Bool × List MetaAction :=
  let p := update_version_localization_payload localization_id m
  ((status == 200), [.patchVersionLoc p.id p.attributes])

/-- Model of `create_version_localization`: POSTs the payload and succeeds exactly on
a 201 response. -/
def create_version_localization (status : Nat) (version_id locale : String)
    (m : Metadata) : Bool × List MetaAction :=
  let p := create_version_localization_payload version_id locale m
  ((status == 201), [.postVersionLoc p.relationshipVersionId p.locale p.attributes])

/-- State threaded through the per-locale loop of `main`:
success and failure counters plus the trace of issued requests. -/
structure SyncState where
  successCount : Nat
  failCount : Nat
  trace : List MetaAction
deriving DecidableEq

/-- Append one upsert call's outcome to the loop state (the
`if ...: success_count += 1 else: fail_count += 1` pattern of `main`). -/
def SyncState.record (st : SyncState) (r : Bool × List MetaAction) : SyncState :=
  { successCount := st.successCount + (if r.1 then 1 else 0)
    failCount := st.failCount + (if r.1 then 0 else 1)
    trace := st.trace ++ r.2 }

/-- One iteration of the locale loop in `main`: the app-info upsert followed
by the version upsert.  `existing_app_info` and `existing_version` are the
locale→record-id dicts prefetched before the loop; `metaOf` is the resolved
metadata for each locale (`get_metadata_for_locale`, total by
`Walnut.get_metadata_for_locale`'s totality); `patchStatus`/`postStatus`
give the response status of the version PATCH/POST for the locale. -/
def sync_locale (existing_app_info existing_version : String → Option String)
    (metaOf : String → Metadata) (patchStatus postStatus : String → Nat)
    (app_info_id version_id : String) (st : SyncState) (locale : String) :
    SyncState :=
  let m := metaOf locale
  let st1 :=
    match existing_app_info locale with
    | some locId => st.record (update_app_info_localization locId locale m)
    | none => st.record (create_app_info_localization app_info_id locale m)
  match existing_version locale with
  | some locId =>
      st1.record (update_version_localization (patchStatus locale) locId locale m)
  | none =>
      st1.record (create_version_localization (postStatus locale) version_id locale m)

/-- The whole localization pass of `main`: fetch the two existing-record
dicts once, then run the locale loop over `LOCALES`. -/
def main_localization_pass (existing_app_info existing_version : String → Option String)
    (metaOf : String → Metadata) (patchStatus postStatus : String → Nat)
    (app_info_id version_id : String) : SyncState :=
  let st0 : SyncState :=
    { successCount := 0
      failCount := 0
      trace := [.getAppInfoLocalizations app_info_id,
                .getVersionLocalizations version_id] }
  LOCALES.foldl
    (sync_locale existing_app_info existing_version metaOf patchStatus
      postStatus app_info_id version_id)
    st0

/-! ### Record selection by editable state (upload-metadata.py)

`get_app_info` and `get_app_store_version` both scan the `data` array of the
response in order, return the id of the first record whose `appStoreState`
is in the editable set, fall back to the first record's id, and raise
`ValueError` on an empty array.  A record is its id plus the value of
`attributes.get("appStoreState", "")`. -/

structure StateRecord where
  id : String
  appStoreState : String
deriving DecidableEq

def EDITABLE_STATES : List String :=
  ["PREPARE_FOR_SUBMISSION", "WAITING_FOR_REVIEW", "IN_REVIEW",
   "PENDING_DEVELOPER_RELEASE", "DEVELOPER_REJECTED", "REJECTED"]

def StateRecord.isEditable (r : StateRecord) : Bool :=
  EDITABLE_STATES.contains r.appStoreState

/-- Model of `get_app_info(app_id)`: the selection made from the listed AppInfo
records (`Except.error` models the `ValueError`). -/
def get_app_info (data : List StateRecord) : Except String String :=
  match data with
  | [] => .error "No app info found"
  | first :: _ =>
      match data.find? (fun r => r.isEditable) with
      | some r => .ok r.id
      | none => .ok first.id

/-- Model of `get_app_store_version(app_id)`: the same selection from the listed
AppStoreVersion records. -/
def get_app_store_version (data : List StateRecord) : Except String String :=
  match data with
  | [] => .error "No app store version found"
  | first :: _ =>
      match data.find? (fun r => r.isEditable) with
      | some r => .ok r.id
      | none => .ok first.id

/-! ### Token providers (upload-screenshots-api.py and upload-metadata.py)

A signed token is modelled by its claim set and `kid` header (signing the
same claims with the same key is modelled as deterministic; distinct claims
give distinct tokens).  `now` is the current Unix time in seconds. -/

def ISSUER_ID : String := "a7524762-b1db-463b-84a8-bbee51a37cc2"

def KEY_ID : String := "74HC92L9NA"

structure Token where
  iss : String
  iat : Int
  exp : Int
  aud : String
  kid : String
deriving DecidableEq

/-- Signing a fresh token at time `now` with a 20-minute expiry (both
scripts use the same claims: `upload-screenshots-api.py` writes
`20 * 60`, `upload-metadata.py` writes `1200`). -/
def signToken (now : Int) : Token :=
  { iss := ISSUER_ID, iat := now, exp := now + 20 * 60,
    aud := "appstoreconnect-v1", kid := KEY_ID }

/-- The module-level token cache of `upload-screenshots-api.py`
(`_cached_token = None`, `_token_expiry = 0` initially). -/
structure TokenCache where
  cachedToken : Option Token
  tokenExpiry : Int
deriving DecidableEq

def initialTokenCache : TokenCache := { cachedToken := none, tokenExpiry := 0 }

/-- Model of `generate_token()` from `upload-screenshots-api.py`: returns the cached
token when one exists and more than the 60-second buffer remains before its
recorded expiry; otherwise signs a fresh token and caches it.  The `Bool`
result records whether a fresh token was signed on this call. -/
def generate_token (now : Int) (st : TokenCache) : Token × TokenCache × Bool :=
  match st.cachedToken with
  | some t =>
      if now < st.tokenExpiry - 60 then (t, st, false)
      else
        let tok := signToken now
        (tok, { cachedToken := some tok, tokenExpiry := now + 20 * 60 }, true)
  | none =>
      let tok := signToken now
      (tok, { cachedToken := some tok, tokenExpiry := now + 20 * 60 }, true)

/-- Model of `generate_jwt_token()` from `upload-metadata.py`: no cache — every call
signs a fresh token from the current time. -/
def generate_jwt_token (now : Int) : Token := signToken now

/-- Model of `get_headers()` from `upload-metadata.py`: builds the header pair from a
freshly generated token on every call (the token is kept structured rather
than serialized into the bearer string). -/
def get_headers (now : Int) : Token × String :=
  (generate_jwt_token now, "application/json")

/-! ### Cover resize (upload-screenshots.py `resize_png`)

`resize_png` reads the source dimensions, computes
`scale = max(target_width/src_w, target_height/src_h)` (modelled in exact
rational arithmetic), truncates `src_w*scale`/`src_h*scale` to integers
(`int()` truncation; all quantities are nonnegative, so this is the floor),
and invokes `magick` with `-resize {new_w}x{new_h}` followed by
`-gravity center -extent {target_width}x{target_height}`.  The `-extent`
argument fixes the output canvas, so the output dimensions are the extent
geometry. -/

structure ResizeGeometry where
  scale : ℚ
  resizeW : Nat
  resizeH : Nat
  extentW : Nat
  extentH : Nat
deriving DecidableEq

def resize_png (src_w src_h target_width target_height : Nat) : ResizeGeometry :=
  let scale_w : ℚ := (target_width : ℚ) / (src_w : ℚ)
  let scale_h : ℚ := (target_height : ℚ) / (src_h : ℚ)
  let scale := max scale_w scale_h
  { scale := scale
    resizeW := (⌊(src_w : ℚ) * scale⌋).toNat
    resizeH := (⌊(src_h : ℚ) * scale⌋).toNat
    extentW := target_width
    extentH := target_height }

/-- The pixel dimensions of the image `magick ... -resize -gravity center
-extent WxH` writes: exactly the `-extent` canvas. -/
def outputDims (g : ResizeGeometry) : Nat × Nat := (g.extentW, g.extentH)

/-! ### Screenshot preparation counters (upload-screenshots.py)

`prepare_locale_screenshots(locale)` walks four file groups; what it does to
each file (SVG conversion or cover resize) does not affect the counters, so
the filesystem is modelled by four predicates saying which candidate indices
exist: locale SVGs `1.svg..3.svg`, generic PNGs `1.png..12.png`, iPad SVGs
`ipad-1.svg..ipad-3.svg`, generic iPad PNGs `ipad-1.png..ipad-4.png`.
Python `range(1, n)` is `List.range' 1 (n - 1)`.  The Python subtraction
`MAX - (index - 1)` is on ints, but at that point `index - 1 ≤ 3 ≤ MAX`, so
natural subtraction agrees. -/

def MAX_IPHONE_SCREENSHOTS : Nat := 10

def MAX_IPAD_SCREENSHOTS : Nat := 10

/-- One of the four `for i in ...: if <file i exists>: convert; index += 1`
loops, acting on the running index. -/
def countLoop (p : Nat → Bool) (idxs : List Nat) (start : Nat) : Nat :=
  idxs.foldl (fun idx i => if p i then idx + 1 else idx) start

/-- Model of `prepare_locale_screenshots`, reduced to the `(iPhone, iPad)` counters it
reports (`screenshot_index - 1`, `ipad_index - 1`). -/
def prepare_locale_screenshots (svg png ipadSvg ipadPng : Nat → Bool) :
    Nat × Nat :=
  let screenshot_index := countLoop svg [1, 2, 3] 1
  let remaining_slots := MAX_IPHONE_SCREENSHOTS - (screenshot_index - 1)
  let screenshot_index :=
    countLoop png (List.range' 1 (min 13 (remaining_slots + 1) - 1))
      screenshot_index
  let ipad_index := countLoop ipadSvg [1, 2, 3] 1
  let remaining_ipad_slots := MAX_IPAD_SCREENSHOTS - (ipad_index - 1)
  let ipad_index :=
    countLoop ipadPng (List.range' 1 (min 5 (remaining_ipad_slots + 1) - 1))
      ipad_index
  (screenshot_index - 1, ipad_index - 1)

/-! ### Three-step screenshot upload (upload-screenshots-api.py)

`upload_screenshot(screenshot_set_id, file_path)` is modelled over the bytes
of the file (`fileData`, one `Nat` per byte; `os.path.getsize` equals the
length of the bytes read).  The MD5 hex digest is computed by `hashlib`, an
external library, so it is a parameter `md5hex`.  The remote's behaviour is
supplied as the reservation response, one status per PUT (indexed by the
operation's position), and the commit PATCH status. -/

structure UploadOp where
  url : String
  offset : Nat
  length : Nat
  requestHeaders : List (String × String)
deriving DecidableEq

structure ReserveResponse where
  status : Nat
  screenshotId : String
  uploadOperations : List UploadOp
deriving DecidableEq

inductive UploadAction where
  | postReserve (setId fileName : String) (fileSize : Nat)
  | putChunk (url : String) (headers : List (String × String))
      (chunk : List Nat)
  | patchCommit (screenshotId : String) (uploaded : Bool) (checksum : String)
deriving DecidableEq

/-- Python `file_data[offset : offset + length]`. -/
def pySlice (l : List Nat) (offset length : Nat) : List Nat :=
  (l.drop offset).take length

/-- The PUT an upload operation gives rise to. -/
def putAction (fileData : List Nat) (op : UploadOp) : UploadAction :=
  .putChunk op.url op.requestHeaders (pySlice fileData op.offset op.length)

/-- The `for op in upload_ops` loop: PUT each chunk in order, stopping at
the first non-2xx response.  Returns the PUTs issued and whether all
succeeded. -/
def putSteps (putStatus : Nat → Nat) (fileData : List Nat) :
    List UploadOp → Nat → List UploadAction × Bool
  | [], _ => ([], true)
  | op :: rest, i =>
      let act := putAction fileData op
      if putStatus i == 200 || putStatus i == 201 then
        let r := putSteps putStatus fileData rest (i + 1)
        (act :: r.1, r.2)
      else ([act], false)

/-- Model of `upload_screenshot`: reserve, PUT the chunks, commit.  Returns the
result boolean and the trace of requests issued. -/
def upload_screenshot (md5hex : List Nat → String)
    (screenshot_set_id file_name : String) (fileData : List Nat)
    (reserve : ReserveResponse) (putStatus : Nat → Nat) (patchStatus : Nat) :
    Bool × List UploadAction :=
  let checksum := md5hex fileData
  let reserveAct : UploadAction :=
    .postReserve screenshot_set_id file_name fileData.length
  if !(reserve.status == 200 || reserve.status == 201) then
    (false, [reserveAct])
  else if reserve.uploadOperations.isEmpty then
    (false, [reserveAct])
  else
    let r := putSteps putStatus fileData reserve.uploadOperations 0
    if r.2 then
      ((patchStatus == 200 || patchStatus == 201),
       reserveAct :: r.1 ++ [.patchCommit reserve.screenshotId true checksum])
    else
      (false, reserveAct :: r.1)

/-! ### Derived notions used in theorem statements -/

/-- Whether the single version-localization HTTP call `main` makes for a
locale succeeds: a 200 on the PATCH when the locale already has a record, a
201 on the POST otherwise. -/
def versionCallOk (existing_version : String → Option String)
    (patchStatus postStatus : String → Nat) (locale : String) : Bool :=
  match existing_version locale with
  | some _ => patchStatus locale == 200
  | none => postStatus locale == 201

/-- The single version-localization request `main` issues for a locale. -/
def versionAction (existing_version : String → Option String)
    (metaOf : String → Metadata) (version_id : String) (locale : String) :
    MetaAction :=
  match existing_version locale with
  | some locId => .patchVersionLoc locId (versionLocAttributes (metaOf locale))
  | none => .postVersionLoc version_id locale (versionLocAttributes (metaOf locale))

/-- A metadata record with all fields empty. -/
def emptyMetadata : Metadata :=
  { name := "", subtitle := "", description := "", keywords := "",
    whatsNew := "", promotionalText := "" }

/-- A metadata record whose description is 4500 characters long. -/
def longDescriptionMetadata : Metadata :=
  { emptyMetadata with description := ⟨List.replicate 4500 'a'⟩ }

/-! ## Theorems -/

/-- **C1** (counterexample).  The claim says every transmitted description
has length at most 4000 and that a 4500-character description is truncated.
In the source, `update_version_localization` and
`create_version_localization` truncate only `keywords` (`[:100]`); the
description is placed in the payload unmodified, so a 4500-character
description is transmitted with length 4500. -/
theorem version_payload_keeps_long_description :
    (update_version_localization_payload "loc1"
        longDescriptionMetadata).attributes.description.length = 4500
    ∧ (create_version_localization_payload "v1" "en-US"
        longDescriptionMetadata).attributes.description.length = 4500
    ∧ ¬ (update_version_localization_payload "loc1"
        longDescriptionMetadata).attributes.description.length ≤ 4000 := by
  have h : longDescriptionMetadata.description.length = 4500 := by
    show (List.replicate 4500 'a').length = 4500
    rw [List.length_replicate]
  refine ⟨h, h, ?_⟩
  show ¬ longDescriptionMetadata.description.length ≤ 4000
  rw [h]
  omega

/-- **C1** (amended).  For every input metadata record, the payloads built
by `update_version_localization` and `create_version_localization` truncate
only the keywords field (to at most 100 characters); description, whatsNew
and promotionalText are transmitted unchanged, and the payloads carry no
name or subtitle field at all (the create payload additionally carries the
locale and the parent-version relationship). -/
theorem version_localization_truncates_only_keywords
    (localization_id version_id locale : String) (m : Metadata) :
    (update_version_localization_payload localization_id m).attributes.keywords.length ≤ 100
    ∧ (update_version_localization_payload localization_id m).attributes.keywords
        = pyTake m.keywords 100
    ∧ (update_version_localization_payload localization_id m).attributes.description
        = m.description
    ∧ (update_version_localization_payload localization_id m).attributes.whatsNew
        = m.whatsNew
    ∧ (update_version_localization_payload localization_id m).attributes.promotionalText
        = m.promotionalText
    ∧ (create_version_localization_payload version_id locale m).attributes
        = (update_version_localization_payload localization_id m).attributes
    ∧ (create_version_localization_payload version_id locale m).locale = locale
    ∧ (create_version_localization_payload version_id locale m).relationshipVersionId
        = version_id := by
  refine ⟨?_, rfl, rfl, rfl, rfl, rfl, rfl, rfl⟩
  show (m.keywords.data.take 100).length ≤ 100
  rw [List.length_take]
  exact min_le_left _ _

set_option maxRecDepth 8000 in
/-- **C2**.  `get_metadata_for_locale` is total and follows the fallback
chain: the direct `METADATA` entry when the locale has one, otherwise the
mapped base-language locale's entry when that entry exists, otherwise the
default locale `"en-US"`'s entry.  In particular every locale in `LOCALES`
resolves (each has a direct entry), and the wholly unsupported `"xx-YY"`
resolves to the `"en-US"` entry. -/
theorem get_metadata_for_locale_total_fallback :
    (∀ locale : String, get_metadata_for_locale locale =
      (if METADATA_keys.contains locale then some locale
       else
         match locale_mapping.lookup locale with
         | some mapped =>
             if METADATA_keys.contains mapped then some mapped
             else some DEFAULT_LOCALE
         | none => some DEFAULT_LOCALE))
    ∧ (∀ locale ∈ LOCALES, get_metadata_for_locale locale = some locale)
    ∧ get_metadata_for_locale "xx-YY" = some DEFAULT_LOCALE := by
  have hd : METADATA_keys.contains DEFAULT_LOCALE = true := by decide
  refine ⟨?_, by decide, by decide⟩
  intro locale
  unfold get_metadata_for_locale
  by_cases h : METADATA_keys.contains locale = true
  · rw [if_pos h, if_pos h]
  · rw [if_neg h, if_neg h]
    cases hm : locale_mapping.lookup locale with
    | none => rw [if_pos hd]
    | some mapped =>
        show (if METADATA_keys.contains mapped = true then some mapped
              else if METADATA_keys.contains DEFAULT_LOCALE = true then
                some DEFAULT_LOCALE
              else none)
            = (if METADATA_keys.contains mapped = true then some mapped
               else some DEFAULT_LOCALE)
        by_cases h2 : METADATA_keys.contains mapped = true
        · rw [if_pos h2, if_pos h2]
        · rw [if_neg h2, if_neg h2, if_pos hd]

/-- Witness for **C2** at a concrete locale. -/
theorem get_metadata_for_locale_total_fallback_witness :
    get_metadata_for_locale "en-US" = some "en-US" :=
  get_metadata_for_locale_total_fallback.2.1 "en-US" (by decide)

/-- One iteration of the locale loop, in closed form: the app-info half
contributes a guaranteed success and no request; the version half
contributes one request and one success-or-failure. -/
theorem sync_locale_eq (eai ev : String → Option String)
    (metaOf : String → Metadata) (patch post : String → Nat)
    (aid vid : String) (st : SyncState) (l : String) :
    sync_locale eai ev metaOf patch post aid vid st l =
      { successCount := st.successCount + 1
          + (if versionCallOk ev patch post l then 1 else 0)
        failCount := st.failCount
          + (if versionCallOk ev patch post l then 0 else 1)
        trace := st.trace ++ [versionAction ev metaOf vid l] } := by
  unfold sync_locale versionCallOk versionAction
  cases eai l <;> cases hv : ev l <;>
    simp [update_app_info_localization, create_app_info_localization,
      update_version_localization, create_version_localization,
      update_version_localization_payload, create_version_localization_payload,
      SyncState.record]

/-- The locale loop in closed form, for any list of locales and any start
state. -/
theorem sync_foldl_spec (eai ev : String → Option String)
    (metaOf : String → Metadata) (patch post : String → Nat)
    (aid vid : String) (L : List String) (st : SyncState) :
    L.foldl (sync_locale eai ev metaOf patch post aid vid) st =
      { successCount := st.successCount + L.length
          + L.countP (versionCallOk ev patch post)
        failCount := st.failCount
          + L.countP (fun l => ! versionCallOk ev patch post l)
        trace := st.trace ++ L.map (versionAction ev metaOf vid) } := by
  induction L generalizing st with
  | nil => simp
  | cons l L ih =>
      rw [List.foldl_cons, sync_locale_eq, ih]
      simp only [SyncState.mk.injEq, List.length_cons, List.countP_cons,
        List.map_cons, List.append_assoc, List.singleton_append]
      refine ⟨?_, ?_, trivial⟩ <;>
        by_cases h : versionCallOk ev patch post l <;> simp [h] <;> omega

/-- The whole localization pass of `main`, in closed form. -/
theorem main_localization_pass_spec (eai ev : String → Option String)
    (metaOf : String → Metadata) (patch post : String → Nat)
    (aid vid : String) :
    main_localization_pass eai ev metaOf patch post aid vid =
      { successCount := LOCALES.length
          + LOCALES.countP (versionCallOk ev patch post)
        failCount := LOCALES.countP (fun l => ! versionCallOk ev patch post l)
        trace := [.getAppInfoLocalizations aid, .getVersionLocalizations vid]
            ++ LOCALES.map (versionAction ev metaOf vid) } := by
  unfold main_localization_pass
  rw [sync_foldl_spec]
  simp

/-- Counting a predicate and its negation over a list covers the list. -/
theorem countP_bool_split {α : Type} (p : α → Bool) (l : List α) :
    l.countP p + l.countP (fun a => ! p a) = l.length := by
  induction l with
  | nil => simp
  | cons a l ih => by_cases h : p a <;> simp [List.countP_cons, h] <;> omega

/-- **C3** (counterexample).  The claim says that when a locale is present
in the prefetched AppInfo-localization mapping the workflow issues a PATCH
updating that record.  With `"en-US"` present in the mapping, the run issues
no app-info localization request at all (the app-info upsert functions are
no-ops). -/
theorem app_info_patch_never_issued :
    ((fun l => if l == "en-US" then some "appinfo-loc-1" else none) :
        String → Option String) "en-US" = some "appinfo-loc-1"
    ∧ (main_localization_pass
          (fun l => if l == "en-US" then some "appinfo-loc-1" else none)
          (fun _ => none) (fun _ => emptyMetadata) (fun _ => 200)
          (fun _ => 201) "appinfo-1" "version-1").trace.countP
        (fun a => a.isAppInfoLocRequest) = 0 := by
  refine ⟨rfl, ?_⟩
  rw [main_localization_pass_spec]
  simp only [List.countP_append, List.countP_cons, List.countP_nil,
    List.countP_map]
  rw [List.countP_eq_zero.mpr]
  · rfl
  · intro l _
    simp [versionAction, MetaAction.isAppInfoLocRequest]

/-- **C3** (amended).  The existing-localization mappings are fetched once
per run (the trace starts with the two GETs and contains no other fetch);
for each locale in `LOCALES`, the Version-localization half issues exactly
one request — a PATCH of the existing record when the locale is in the
prefetched mapping, otherwise a POST carrying the locale and the
parent-version relationship — while the AppInfo-localization half issues no
request at all. -/
theorem main_upsert_version_only (eai ev : String → Option String)
    (metaOf : String → Metadata) (patch post : String → Nat)
    (aid vid : String) :
    (main_localization_pass eai ev metaOf patch post aid vid).trace
      = [.getAppInfoLocalizations aid, .getVersionLocalizations vid]
          ++ LOCALES.map (versionAction ev metaOf vid)
    ∧ (∀ l, versionAction ev metaOf vid l =
        match ev l with
        | some locId => .patchVersionLoc locId (versionLocAttributes (metaOf l))
        | none => .postVersionLoc vid l (versionLocAttributes (metaOf l)))
    ∧ (main_localization_pass eai ev metaOf patch post aid vid).trace.countP
        (fun a => a.isFetch) = 2
    ∧ (main_localization_pass eai ev metaOf patch post aid vid).trace.countP
        (fun a => a.isAppInfoLocRequest) = 0 := by
  rw [main_localization_pass_spec]
  refine ⟨rfl, fun l => rfl, ?_, ?_⟩ <;>
    · simp only [List.countP_append, List.countP_cons, List.countP_nil,
        List.countP_map]
      rw [List.countP_eq_zero.mpr]
      · rfl
      · intro l _
        rcases hv : ev l with _ | locId <;>
          simp [versionAction, hv, MetaAction.isFetch,
            MetaAction.isAppInfoLocRequest]

/-- **C4**.  `update_app_info_localization` and
`create_app_info_localization` return `True` on every input and issue no
HTTP request, so the AppInfo half of the sync transmits nothing (in
particular never the name or subtitle) and contributes one guaranteed
success per locale: the final tally satisfies
`success + fail = 2 * |LOCALES|` with at least `|LOCALES|` successes. -/
theorem app_info_noop_and_tally (a b : String) (m : Metadata)
    (eai ev : String → Option String) (metaOf : String → Metadata)
    (patch post : String → Nat) (aid vid : String) :
    update_app_info_localization a b m = (true, [])
    ∧ create_app_info_localization a b m = (true, [])
    ∧ (main_localization_pass eai ev metaOf patch post aid vid).trace.countP
        (fun x => x.isAppInfoLocRequest) = 0
    ∧ (main_localization_pass eai ev metaOf patch post aid vid).successCount
        + (main_localization_pass eai ev metaOf patch post aid vid).failCount
        = 2 * LOCALES.length
    ∧ LOCALES.length
        ≤ (main_localization_pass eai ev metaOf patch post aid vid).successCount := by
  have hsplit := countP_bool_split (versionCallOk ev patch post) LOCALES
  rw [main_localization_pass_spec]
  refine ⟨rfl, rfl, ?_, ?_, ?_⟩
  · simp only [List.countP_append, List.countP_cons, List.countP_nil,
      List.countP_map]
    rw [List.countP_eq_zero.mpr]
    · rfl
    · intro l _
      rcases hv : ev l with _ | locId <;>
        simp [versionAction, hv, MetaAction.isAppInfoLocRequest]
  · show LOCALES.length + LOCALES.countP (versionCallOk ev patch post)
        + LOCALES.countP (fun l => ! versionCallOk ev patch post l)
        = 2 * LOCALES.length
    omega
  · show LOCALES.length
        ≤ LOCALES.length + LOCALES.countP (versionCallOk ev patch post)
    omega

/-- In a list, `find?` returns the element at the first position satisfying
the predicate. -/
theorem find_first_match {α : Type} (p : α → Bool) (l : List α) :
    ∀ (i : Nat) (hi : i < l.length),
      p (l.get ⟨i, hi⟩) = true →
      (∀ (j : Nat) (hj : j < l.length), j < i → p (l.get ⟨j, hj⟩) = false) →
      l.find? p = some (l.get ⟨i, hi⟩) := by
  induction l with
  | nil => intro i hi; exact absurd hi (by simp)
  | cons a t ih =>
      intro i hi hp hb
      cases i with
      | zero => exact List.find?_cons_of_pos _ hp
      | succ i =>
          have ha : p a = false := hb 0 (by simp) (by omega)
          rw [List.find?_cons_of_neg _ (by simp [ha])]
          exact ih i (by simpa using hi) hp
            (fun j hj hji => hb (j + 1) (by simpa using hj) (by omega))

/-- **C5**.  `get_app_info` and `get_app_store_version` both return the id
of the first listed record whose `appStoreState` is in the editable set;
when no record is editable they fall back to the first record's id; and on
an empty record list they raise (modelled by `Except.error`) instead of
returning. -/
theorem editable_state_selection (data : List StateRecord) :
    (data = [] → get_app_info data = .error "No app info found"
      ∧ get_app_store_version data = .error "No app store version found")
    ∧ (∀ (i : Nat) (hi : i < data.length),
        (data.get ⟨i, hi⟩).isEditable = true →
        (∀ (j : Nat) (hj : j < data.length), j < i →
          (data.get ⟨j, hj⟩).isEditable = false) →
        get_app_info data = .ok (data.get ⟨i, hi⟩).id
        ∧ get_app_store_version data = .ok (data.get ⟨i, hi⟩).id)
    ∧ ((∀ r ∈ data, r.isEditable = false) →
        ∀ (h : data ≠ []),
        get_app_info data = .ok (data.head h).id
        ∧ get_app_store_version data = .ok (data.head h).id) := by
  refine ⟨?_, ?_, ?_⟩
  · intro h; subst h; exact ⟨rfl, rfl⟩
  · intro i hi hp hb
    have hf : data.find? (fun r => r.isEditable) = some (data.get ⟨i, hi⟩) :=
      find_first_match _ data i hi hp hb
    cases data with
    | nil => exact absurd hi (by simp)
    | cons a t => exact ⟨by simp [get_app_info, hf], by simp [get_app_store_version, hf]⟩
  · intro hall h
    have hf : data.find? (fun r => r.isEditable) = none :=
      List.find?_eq_none.mpr (fun x hx => by simp [hall x hx])
    cases data with
    | nil => exact absurd rfl h
    | cons a t => exact ⟨by simp [get_app_info, hf], by simp [get_app_store_version, hf]⟩

/-- Witness for **C5**: with a released first record and an editable second
record, both resolvers pick the second. -/
theorem editable_state_selection_witness :
    get_app_info
        [{ id := "id1", appStoreState := "READY_FOR_SALE" },
         { id := "id2", appStoreState := "PREPARE_FOR_SUBMISSION" }]
      = .ok "id2"
    ∧ get_app_store_version
        [{ id := "id1", appStoreState := "READY_FOR_SALE" },
         { id := "id2", appStoreState := "PREPARE_FOR_SUBMISSION" }]
      = .ok "id2" :=
  (editable_state_selection
      [{ id := "id1", appStoreState := "READY_FOR_SALE" },
       { id := "id2", appStoreState := "PREPARE_FOR_SUBMISSION" }]).2.1
    1 (by decide) (by decide)
    (fun j _ hlt => by
      have hj : j = 0 := by omega
      subst hj
      rfl)

/-- **C6** (counterexample).  The claim covers `generate_jwt_token` (and
`get_headers`) of `upload-metadata.py` among its sources, saying a call made
while more than the 60-second margin remains before the previous token's
expiry returns the same token without re-signing.  `generate_jwt_token` has
no cache: a second call 10 seconds after one at time 0 — far inside the
margin of the first token's 1200-second expiry — returns a different,
freshly signed token. -/
theorem metadata_token_not_cached :
    ((10 : Int) < 0 + 1200 - 60)
    ∧ generate_jwt_token 10 ≠ generate_jwt_token 0 := by
  refine ⟨by decide, ?_⟩
  intro h
  have h2 : (10 : Int) = 0 := congrArg Token.iat h
  exact absurd h2 (by decide)

/-- **C6** (amended).  The screenshots-API provider `generate_token` caches:
while more than 60 seconds remain before the cached expiry it returns the
cached token with no signing, it always caches the token it returns, and any
call within the margin after a prior call returns that call's token without
signing.  The metadata script's `generate_jwt_token`, by contrast, signs a
fresh token from the current time on every call, so calls at different times
never return the same token. -/
theorem token_provider_caching :
    (∀ (now : Int) (st : TokenCache) (t : Token),
      st.cachedToken = some t → now < st.tokenExpiry - 60 →
      generate_token now st = (t, st, false))
    ∧ (∀ (now : Int) (st : TokenCache),
        ((generate_token now st).2.1).cachedToken = some (generate_token now st).1)
    ∧ (∀ (now1 now2 : Int) (st : TokenCache),
        now2 < ((generate_token now1 st).2.1).tokenExpiry - 60 →
        generate_token now2 ((generate_token now1 st).2.1)
          = ((generate_token now1 st).1, (generate_token now1 st).2.1, false))
    ∧ (∀ now : Int, generate_jwt_token now = signToken now)
    ∧ (∀ n1 n2 : Int, n1 ≠ n2 → generate_jwt_token n1 ≠ generate_jwt_token n2) := by
  have h1 : ∀ (now : Int) (st : TokenCache) (t : Token),
      st.cachedToken = some t → now < st.tokenExpiry - 60 →
      generate_token now st = (t, st, false) := by
    intro now st t h hlt
    simp [generate_token, h, hlt]
  have h2 : ∀ (now : Int) (st : TokenCache),
      ((generate_token now st).2.1).cachedToken = some (generate_token now st).1 := by
    intro now st
    rcases hc : st.cachedToken with _ | t
    · simp [generate_token, hc]
    · by_cases hlt : now < st.tokenExpiry - 60 <;> simp [generate_token, hc, hlt]
  refine ⟨h1, h2, ?_, fun _ => rfl, ?_⟩
  · intro now1 now2 st hlt
    exact h1 now2 _ _ (h2 now1 st) hlt
  · intro n1 n2 hne h
    exact hne (congrArg Token.iat h)

/-- Witness for **C6**: a call at time 0 against a cache holding a token
that expires at 1100 returns the cached token unchanged without signing. -/
theorem token_provider_caching_witness :
    generate_token 0
        { cachedToken := some (signToken (-100)), tokenExpiry := 1100 }
      = (signToken (-100),
         { cachedToken := some (signToken (-100)), tokenExpiry := 1100 },
         false) :=
  token_provider_caching.1 0
    { cachedToken := some (signToken (-100)), tokenExpiry := 1100 }
    (signToken (-100)) rfl (by decide)

/-- **C7**.  For positive source dimensions, `resize_png` computes the scale
factor exactly `max(target_w/src_w, target_h/src_h)`, that scale covers the
target box in both axes, and the written image's dimensions are exactly the
target box (the `-extent` canvas) regardless of the source aspect ratio. -/
theorem resize_png_cover (src_w src_h target_width target_height : Nat)
    (hw : 0 < src_w) (hh : 0 < src_h) :
    (resize_png src_w src_h target_width target_height).scale
      = max ((target_width : ℚ) / (src_w : ℚ)) ((target_height : ℚ) / (src_h : ℚ))
    ∧ outputDims (resize_png src_w src_h target_width target_height)
      = (target_width, target_height)
    ∧ (target_width : ℚ)
      ≤ (src_w : ℚ) * (resize_png src_w src_h target_width target_height).scale
    ∧ (target_height : ℚ)
      ≤ (src_h : ℚ) * (resize_png src_w src_h target_width target_height).scale := by
  refine ⟨rfl, rfl, ?_, ?_⟩
  · show (target_width : ℚ)
      ≤ (src_w : ℚ) * max ((target_width : ℚ) / (src_w : ℚ)) ((target_height : ℚ) / (src_h : ℚ))
    have hsw : (0 : ℚ) < (src_w : ℚ) := by exact_mod_cast hw
    have hle := mul_le_mul_of_nonneg_left
      (le_max_left ((target_width : ℚ) / (src_w : ℚ)) ((target_height : ℚ) / (src_h : ℚ)))
      (le_of_lt hsw)
    have hcancel : (src_w : ℚ) * ((target_width : ℚ) / (src_w : ℚ)) = (target_width : ℚ) := by
      field_simp
    rw [hcancel] at hle
    exact hle
  · show (target_height : ℚ)
      ≤ (src_h : ℚ) * max ((target_width : ℚ) / (src_w : ℚ)) ((target_height : ℚ) / (src_h : ℚ))
    have hsh : (0 : ℚ) < (src_h : ℚ) := by exact_mod_cast hh
    have hle := mul_le_mul_of_nonneg_left
      (le_max_right ((target_width : ℚ) / (src_w : ℚ)) ((target_height : ℚ) / (src_h : ℚ)))
      (le_of_lt hsh)
    have hcancel : (src_h : ℚ) * ((target_height : ℚ) / (src_h : ℚ)) = (target_height : ℚ) := by
      field_simp
    rw [hcancel] at hle
    exact hle

/-- Witness for **C7** at the spec's example: an 800x600 source targeted at
1320x2868 is scaled by `max(1320/800, 2868/600)` and written at exactly
1320x2868. -/
theorem resize_png_cover_witness :
    (resize_png 800 600 1320 2868).scale = max ((1320 : ℚ) / 800) ((2868 : ℚ) / 600)
    ∧ outputDims (resize_png 800 600 1320 2868) = (1320, 2868) := by
  obtain ⟨h1, h2, _, _⟩ := resize_png_cover 800 600 1320 2868 (by norm_num) (by norm_num)
  exact ⟨h1, h2⟩

/-- A counted existence loop adds at most the number of candidate indices to
the running index. -/
theorem countLoop_le (p : Nat → Bool) (idxs : List Nat) (s : Nat) :
    countLoop p idxs s ≤ s + idxs.length := by
  induction idxs generalizing s with
  | nil => simp [countLoop]
  | cons i t ih =>
      show countLoop p t (if p i then s + 1 else s) ≤ s + (i :: t).length
      by_cases h : p i = true
      · rw [if_pos h]
        have := ih (s + 1)
        simp only [List.length_cons]
        omega
      · rw [if_neg h]
        have := ih s
        simp only [List.length_cons]
        omega

/-- A counted existence loop never decreases the running index. -/
theorem countLoop_ge (p : Nat → Bool) (idxs : List Nat) (s : Nat) :
    s ≤ countLoop p idxs s := by
  induction idxs generalizing s with
  | nil => simp [countLoop]
  | cons i t ih =>
      show s ≤ countLoop p t (if p i then s + 1 else s)
      by_cases h : p i = true
      · rw [if_pos h]
        have := ih (s + 1)
        omega
      · rw [if_neg h]
        exact ih s

/-- **C8**.  Whatever combination of localized template files and generic
source files exists, `prepare_locale_screenshots` produces at most 10 iPhone
and at most 10 iPad screenshots for the locale. -/
theorem prepare_locale_screenshots_bounded (svg png ipadSvg ipadPng : Nat → Bool) :
    (prepare_locale_screenshots svg png ipadSvg ipadPng).1 ≤ MAX_IPHONE_SCREENSHOTS
    ∧ (prepare_locale_screenshots svg png ipadSvg ipadPng).2 ≤ MAX_IPAD_SCREENSHOTS := by
  have ha1 : 1 ≤ countLoop svg [1, 2, 3] 1 := countLoop_ge svg [1, 2, 3] 1
  have ha2 : countLoop svg [1, 2, 3] 1 ≤ 4 := by
    have := countLoop_le svg [1, 2, 3] 1
    simpa using this
  have hb := countLoop_le png
    (List.range' 1 (min 13 (10 - (countLoop svg [1, 2, 3] 1 - 1) + 1) - 1))
    (countLoop svg [1, 2, 3] 1)
  rw [List.length_range'] at hb
  have hc1 : 1 ≤ countLoop ipadSvg [1, 2, 3] 1 := countLoop_ge ipadSvg [1, 2, 3] 1
  have hc2 : countLoop ipadSvg [1, 2, 3] 1 ≤ 4 := by
    have := countLoop_le ipadSvg [1, 2, 3] 1
    simpa using this
  have hd := countLoop_le ipadPng
    (List.range' 1 (min 5 (10 - (countLoop ipadSvg [1, 2, 3] 1 - 1) + 1) - 1))
    (countLoop ipadSvg [1, 2, 3] 1)
  rw [List.length_range'] at hd
  constructor
  · show countLoop png
        (List.range' 1 (min 13 (10 - (countLoop svg [1, 2, 3] 1 - 1) + 1) - 1))
        (countLoop svg [1, 2, 3] 1) - 1 ≤ 10
    omega
  · show countLoop ipadPng
        (List.range' 1 (min 5 (10 - (countLoop ipadSvg [1, 2, 3] 1 - 1) + 1) - 1))
        (countLoop ipadSvg [1, 2, 3] 1) - 1 ≤ 10
    omega

/-- When every PUT in range succeeds, the PUT loop issues one chunk upload
per operation, in order, and reports success. -/
theorem putSteps_all_ok (putStatus : Nat → Nat) (fd : List Nat) :
    ∀ (ops : List UploadOp) (start : Nat),
      (∀ k, k < ops.length →
        (putStatus (start + k) == 200 || putStatus (start + k) == 201) = true) →
      putSteps putStatus fd ops start = (ops.map (putAction fd), true) := by
  intro ops
  induction ops with
  | nil => intro start _; rfl
  | cons op rest ih =>
      intro start h
      have h0 : (putStatus start == 200 || putStatus start == 201) = true := by
        simpa using h 0 (by simp)
      have hrest : ∀ k, k < rest.length →
          (putStatus (start + 1 + k) == 200 || putStatus (start + 1 + k) == 201) = true := by
        intro k hk
        rw [show start + 1 + k = start + (k + 1) by omega]
        exact h (k + 1) (by simp; omega)
      simp [putSteps, h0, ih (start + 1) hrest]

/-- The PUT loop reports success exactly when every PUT in range succeeds. -/
theorem putSteps_snd_iff (putStatus : Nat → Nat) (fd : List Nat) :
    ∀ (ops : List UploadOp) (start : Nat),
      (putSteps putStatus fd ops start).2 = true ↔
        (∀ k, k < ops.length →
          (putStatus (start + k) == 200 || putStatus (start + k) == 201) = true) := by
  intro ops
  induction ops with
  | nil => intro start; simp [putSteps]
  | cons op rest ih =>
      intro start
      by_cases h0 : (putStatus start == 200 || putStatus start == 201) = true
      · have hstep : (putSteps putStatus fd (op :: rest) start).2
            = (putSteps putStatus fd rest (start + 1)).2 := by
          simp [putSteps, h0]
        rw [hstep, ih (start + 1)]
        constructor
        · intro hr k hk
          cases k with
          | zero => simpa using h0
          | succ k =>
              rw [show start + (k + 1) = start + 1 + k by omega]
              exact hr k (by simpa using hk)
        · intro hall k hk
          rw [show start + 1 + k = start + (k + 1) by omega]
          exact hall (k + 1) (by simp; omega)
      · have hstep : putSteps putStatus fd (op :: rest) start
            = ([putAction fd op], false) := by
          simp [putSteps, h0]
        rw [hstep]
        constructor
        · intro hf; exact absurd hf (by simp)
        · intro hall; exact absurd (by simpa using hall 0 (by simp)) h0

/-- When the first failing PUT is at position `i`, the loop issues the PUTs
up to and including position `i` and reports failure. -/
theorem putSteps_first_fail (putStatus : Nat → Nat) (fd : List Nat) :
    ∀ (ops : List UploadOp) (start i : Nat), i < ops.length →
      (∀ j, j < i →
        (putStatus (start + j) == 200 || putStatus (start + j) == 201) = true) →
      ¬ (putStatus (start + i) == 200 || putStatus (start + i) == 201) = true →
      putSteps putStatus fd ops start
        = ((ops.take (i + 1)).map (putAction fd), false) := by
  intro ops
  induction ops with
  | nil => intro start i hi; exact absurd hi (by simp)
  | cons op rest ih =>
      intro start i hi hbefore hfail
      cases i with
      | zero =>
          have h0 : ¬ (putStatus start == 200 || putStatus start == 201) = true := by
            simpa using hfail
          simp [putSteps, h0]
      | succ i =>
          have h0 : (putStatus start == 200 || putStatus start == 201) = true := by
            simpa using hbefore 0 (by omega)
          have hb : ∀ j, j < i →
              (putStatus (start + 1 + j) == 200 || putStatus (start + 1 + j) == 201) = true := by
            intro j hj
            rw [show start + 1 + j = start + (j + 1) by omega]
            exact hbefore (j + 1) (by omega)
          have hf : ¬ (putStatus (start + 1 + i) == 200
              || putStatus (start + 1 + i) == 201) = true := by
            rw [show start + 1 + i = start + (i + 1) by omega]
            exact hfail
          simp [putSteps, h0, ih (start + 1) i (by simpa using hi) hb hf]

/-- **C9**.  `upload_screenshot` performs the three-step protocol in order:
it first POSTs a reservation carrying exactly the file's name and byte
size; on a successful reservation it PUTs, for each upload operation in
order, exactly the byte range `file_data[offset : offset+length]` with that
operation's headers, stopping at the first failure; when all PUTs succeed
it PATCHes the reservation as uploaded with a checksum equal to the digest
of the entire file's contents; and the call returns `true` exactly when the
reservation succeeded, its operation list was non-empty, every PUT
succeeded, and the commit PATCH succeeded. -/
theorem upload_screenshot_protocol (md5hex : List Nat → String)
    (setId fname : String) (fd : List Nat) (reserve : ReserveResponse)
    (putStatus : Nat → Nat) (patchStatus : Nat) :
    ((upload_screenshot md5hex setId fname fd reserve putStatus patchStatus).2.head?
        = some (.postReserve setId fname fd.length))
    ∧ ((upload_screenshot md5hex setId fname fd reserve putStatus patchStatus).1 = true ↔
        ((reserve.status == 200 || reserve.status == 201) = true
         ∧ reserve.uploadOperations ≠ []
         ∧ (∀ k, k < reserve.uploadOperations.length →
             (putStatus k == 200 || putStatus k == 201) = true)
         ∧ (patchStatus == 200 || patchStatus == 201) = true))
    ∧ (¬ (reserve.status == 200 || reserve.status == 201) = true →
        upload_screenshot md5hex setId fname fd reserve putStatus patchStatus
          = (false, [.postReserve setId fname fd.length]))
    ∧ ((reserve.status == 200 || reserve.status == 201) = true →
        reserve.uploadOperations ≠ [] →
        (∀ k, k < reserve.uploadOperations.length →
          (putStatus k == 200 || putStatus k == 201) = true) →
        (upload_screenshot md5hex setId fname fd reserve putStatus patchStatus).2
          = .postReserve setId fname fd.length
              :: reserve.uploadOperations.map (putAction fd)
              ++ [.patchCommit reserve.screenshotId true (md5hex fd)])
    ∧ (∀ i, i < reserve.uploadOperations.length →
        (reserve.status == 200 || reserve.status == 201) = true →
        (∀ j, j < i → (putStatus j == 200 || putStatus j == 201) = true) →
        ¬ (putStatus i == 200 || putStatus i == 201) = true →
        upload_screenshot md5hex setId fname fd reserve putStatus patchStatus
          = (false, .postReserve setId fname fd.length
              :: (reserve.uploadOperations.take (i + 1)).map (putAction fd))) := by
  by_cases hres : (reserve.status == 200 || reserve.status == 201) = true
  · by_cases hops : reserve.uploadOperations = []
    · have hu : upload_screenshot md5hex setId fname fd reserve putStatus patchStatus
          = (false, [.postReserve setId fname fd.length]) := by
        simp [upload_screenshot, hres, hops]
      rw [hu]
      refine ⟨rfl, by simp [hops], fun hc => absurd hres hc, ?_, ?_⟩
      · intro _ hne _; exact absurd hops hne
      · intro i hi; rw [hops] at hi; exact absurd hi (by simp)
    · have hne : reserve.uploadOperations.isEmpty = false := by
        cases hL : reserve.uploadOperations with
        | nil => exact absurd hL hops
        | cons a t => rfl
      by_cases hsnd : (putSteps putStatus fd reserve.uploadOperations 0).2 = true
      · have hall : ∀ k, k < reserve.uploadOperations.length →
            (putStatus k == 200 || putStatus k == 201) = true := by
          have := (putSteps_snd_iff putStatus fd reserve.uploadOperations 0).mp hsnd
          intro k hk
          simpa using this k hk
        have hput := putSteps_all_ok putStatus fd reserve.uploadOperations 0
          (fun k hk => by simpa using hall k hk)
        have hu : upload_screenshot md5hex setId fname fd reserve putStatus patchStatus
            = ((patchStatus == 200 || patchStatus == 201),
               .postReserve setId fname fd.length
                 :: reserve.uploadOperations.map (putAction fd)
                 ++ [.patchCommit reserve.screenshotId true (md5hex fd)]) := by
          simp [upload_screenshot, hres, hne, hput]
        rw [hu]
        refine ⟨rfl, ?_, fun hc => absurd hres hc, fun _ _ _ => rfl, ?_⟩
        · exact ⟨fun hp => ⟨hres, hops, hall, hp⟩, fun h => h.2.2.2⟩
        · intro i hi _ _ hfi
          exact absurd (hall i hi) hfi
      · have hu : upload_screenshot md5hex setId fname fd reserve putStatus patchStatus
            = (false, .postReserve setId fname fd.length
                :: (putSteps putStatus fd reserve.uploadOperations 0).1) := by
          simp [upload_screenshot, hres, hne, hsnd]
        refine ⟨by rw [hu]; rfl, ?_, fun hc => absurd hres hc, ?_, ?_⟩
        · rw [hu]
          constructor
          · intro hf; exact absurd hf (by simp)
          · rintro ⟨_, _, hall, _⟩
            exact absurd ((putSteps_snd_iff putStatus fd reserve.uploadOperations 0).mpr
              (fun k hk => by simpa using hall k hk)) hsnd
        · intro _ _ hall
          exact absurd ((putSteps_snd_iff putStatus fd reserve.uploadOperations 0).mpr
            (fun k hk => by simpa using hall k hk)) hsnd
        · intro i hi _ hbefore hfi
          have hfirst := putSteps_first_fail putStatus fd reserve.uploadOperations 0 i hi
            (fun j hj => by simpa using hbefore j hj) (by simpa using hfi)
          rw [hu, congrArg Prod.fst hfirst]
  · have hu : upload_screenshot md5hex setId fname fd reserve putStatus patchStatus
        = (false, [.postReserve setId fname fd.length]) := by
      simp [upload_screenshot, hres]
    rw [hu]
    refine ⟨rfl, by simp [hres], fun _ => rfl, ?_, ?_⟩
    · intro hc; exact absurd hc hres
    · intro i _ hc; exact absurd hc hres

/-- Witness for **C9**: a 3-byte file uploaded through a successful
reservation with two operations yields the full three-step trace — the
reservation POST with the file's name and size, the two byte-range PUTs,
and the commit PATCH carrying the whole-file digest — and returns `true`. -/
theorem upload_screenshot_protocol_witness :
    (upload_screenshot (fun _ => "digest0") "set1" "shot.png" [7, 8, 9]
        { status := 201, screenshotId := "shot1",
          uploadOperations :=
            [{ url := "u1", offset := 0, length := 2, requestHeaders := [("k", "v")] },
             { url := "u2", offset := 2, length := 1, requestHeaders := [] }] }
        (fun _ => 200) 200).1 = true
    ∧ (upload_screenshot (fun _ => "digest0") "set1" "shot.png" [7, 8, 9]
        { status := 201, screenshotId := "shot1",
          uploadOperations :=
            [{ url := "u1", offset := 0, length := 2, requestHeaders := [("k", "v")] },
             { url := "u2", offset := 2, length := 1, requestHeaders := [] }] }
        (fun _ => 200) 200).2
      = [.postReserve "set1" "shot.png" 3,
         .putChunk "u1" [("k", "v")] [7, 8],
         .putChunk "u2" [] [9],
         .patchCommit "shot1" true "digest0"] := by
  have h := upload_screenshot_protocol (fun _ => "digest0") "set1" "shot.png" [7, 8, 9]
    { status := 201, screenshotId := "shot1",
      uploadOperations :=
        [{ url := "u1", offset := 0, length := 2, requestHeaders := [("k", "v")] },
         { url := "u2", offset := 2, length := 1, requestHeaders := [] }] }
    (fun _ => 200) 200
  constructor
  · exact h.2.1.mpr ⟨rfl, by simp, fun k _ => rfl, rfl⟩
  · have ht := h.2.2.2.1 rfl (by simp) (fun k _ => rfl)
    rw [ht]
    rfl

end Walnut
